import Mathlib

/-!
# Verification of the fixture selection / normalization / grouping pipeline

Shallow embedding of `src/data_processor/db_reader.py` from the
`football-fixtures` repository.

Modelling conventions:

* Python values that occur in this pipeline (SQLite column values, strings
  produced by formatting, decoded JSON payloads) are modelled by `PyVal`.
  Floats and bytes do not occur in any behaviour the claims touch and are
  not modelled.  Python's `bool`/`int` cross-type equality quirk
  (`True == 1`) is not modelled; no dictionary key in this pipeline is a
  boolean.
* A Python `dict` built from a `sqlite3.Row` is modelled as an association
  list `Row := List (String × PyVal)` in column order; `dict.get`,
  item assignment and `in` are modelled by `Row.getD`, `Row.set`,
  `Row.hasKey`, reproducing Python's behaviour exactly (in particular
  `d.get(k, default)` returns a stored `None`, not the default, when the
  key is present).
* The sqlite connection and SQL query of `get_fixtures` are outside the
  embedding: the rows the cursor returns are an explicit input, and the
  filesystem is an explicit predicate `String → Bool` used by
  `get_db_path`.  The process-local timezone consulted by
  `datetime.astimezone()` is an explicit parameter (a fixed UTC offset in
  minutes); daylight-saving variation of the local zone and the
  `OverflowError` that CPython raises when `astimezone` leaves the year
  range 1..9999 are not modelled.
* `datetime.fromisoformat` (CPython ≤ 3.10 grammar, which is what the
  source targets — it pre-replaces a `Z` suffix by `+00:00`) is modelled
  by `fromisoformat` below, including range validation performed by the
  `datetime`/`timezone` constructors.  Numeric-literal underscores and
  embedded whitespace accepted by `int()` slicing inside the CPython
  parser are not modelled.  Timezone suffixes with a seconds component
  (length 8/15) are rare and not modelled; `±HH:MM` is.
* `json.loads` in `save_fixtures_to_json` is kept parametric: the
  serializer takes the decoder as an argument `loads : String → Option PyVal`
  (`none` models a raised decode error).
-/

/-- Model of the Python values flowing through the pipeline. -/
inductive PyVal where
  | none
  | bool (b : Bool)
  | int (z : Int)
  | str (s : String)
  | list (xs : List PyVal)
  | dict (xs : List (String × PyVal))
deriving Repr

namespace PyVal

mutual

/-- Structural equality on `PyVal`, modelling Python `==` on these values
(modulo the unmodelled `bool == int` quirk; see file header). -/
def beq : PyVal → PyVal → Bool
  | .none, .none => true
  | .bool a, .bool b => a == b
  | .int a, .int b => a == b
  | .str a, .str b => a == b
  | .list a, .list b => beqList a b
  | .dict a, .dict b => beqPairs a b
  | _, _ => false

def beqList : List PyVal → List PyVal → Bool
  | [], [] => true
  | a :: as, b :: bs => beq a b && beqList as bs
  | _, _ => false

def beqPairs : List (String × PyVal) → List (String × PyVal) → Bool
  | [], [] => true
  | (k, a) :: as, (l, b) :: bs => k == l && beq a b && beqPairs as bs
  | _, _ => false

end

instance : BEq PyVal := ⟨beq⟩

/-- Python truthiness (`bool(x)`) for the modelled values. -/
def truthy : PyVal → Bool
  | .none => false
  | .bool b => b
  | .int z => z != 0
  | .str s => s != ""
  | .list xs => !xs.isEmpty
  | .dict xs => !xs.isEmpty

end PyVal

/-- A Python dict with string keys, as produced by `dict(row)` on a
`sqlite3.Row` — an association list in key insertion order. -/
abbrev Row : Type := List (String × PyVal)

namespace Row

/-- First binding of a key, if any (`k in d` / `d[k]` lookup). -/
def find? (r : Row) (k : String) : Option PyVal :=
  match r with
  | [] => Option.none
  | (k', v) :: rest => if k' = k then some v else find? rest k

/-- Python `d.get(k, default)`: the stored value when the key is present (even
when that value is `None`), the default otherwise. -/
def getD (r : Row) (k : String) (d : PyVal) : PyVal :=
  match r.find? k with
  | some v => v
  | Option.none => d

/-- Python `k in d`. -/
def hasKey (r : Row) (k : String) : Bool :=
  (r.find? k).isSome

/-- Python `d[k] = v`: update the first binding in place, or append a new one —
Python dict assignment keeps the key's original position. -/
def set (r : Row) (k : String) (v : PyVal) : Row :=
  match r with
  | [] => [(k, v)]
  | (k', v') :: rest => if k' = k then (k, v) :: rest else (k', v') :: set rest k v

/-- Remove every binding of a key (used only in theorem statements). -/
def eraseKey (r : Row) (k : String) : Row :=
  match r with
  | [] => []
  | (k', v') :: rest => if k' = k then eraseKey rest k else (k', v') :: eraseKey rest k

end Row

/-- Models CPython `int(x)` on the modelled values: identity on ints,
0/1 on bools, and signed-decimal parsing with surrounding whitespace
stripped on strings; everything else (and non-numeric text) raises. -/
def pyInt : PyVal → Except String Int
  | .int z => .ok z
  | .bool b => .ok (if b then 1 else 0)
  | .str s =>
    let cs := (s.data.dropWhile Char.isWhitespace).reverse.dropWhile Char.isWhitespace |>.reverse
    let (sign, digits) :=
      match cs with
      | '-' :: rest => ((-1 : Int), rest)
      | '+' :: rest => ((1 : Int), rest)
      | rest => ((1 : Int), rest)
    if digits.isEmpty || !digits.all Char.isDigit then
      .error ("ValueError: invalid literal for int() with base 10: " ++ s)
    else
      .ok (sign * (digits.foldl (fun acc c => acc * 10 + (Int.ofNat (c.toNat - 48))) 0))
  | .none => .error "TypeError: int() argument must not be None"
  | .list _ => .error "TypeError: int() argument must not be a list"
  | .dict _ => .error "TypeError: int() argument must not be a dict"

/-- The module-level fallback allow-list assigned when importing
`league_manager` fails (`db_reader.py` lines 26–56).  The source writes
the 462 consecutive integers 39, 40, …, 500 as literals; `List.range'`
produces exactly that enumeration. -/
def FALLBACK_LEAGUE_IDS : List Int :=
  (List.range' 39 462).map Int.ofNat

/-- Outcome of executing `from league_manager import
LEAGUE_ID_TO_TRADITIONAL_CHINESE` followed by `set(….keys())`:
a successful import of a mapping, an `ImportError` (module or attribute
missing), or any other exception raised while loading (e.g. a
`SyntaxError` in the module body or an `AttributeError` when the imported
name is not a mapping — the spec's "malformed data"). -/
inductive LoadOutcome where
  | ok (mapping : List (Int × String))
  | importError (msg : String)
  | otherError (msg : String)

/-- The module-level `try/except ImportError` of `db_reader.py` lines
19–57 that computes `TARGET_LEAGUE_IDS`: a successful import yields the
mapping's keys, an `ImportError` yields the hardcoded fallback ids, and
any other exception propagates (only `ImportError` is caught). -/
def loadTargetLeagueIds : LoadOutcome → Except String (List Int)
  | .ok mapping => .ok (mapping.map Prod.fst)
  | .importError _ => .ok FALLBACK_LEAGUE_IDS
  | .otherError msg => .error msg

/-- Model of a CPython `datetime` as built by `fromisoformat`:
calendar fields plus an optional fixed UTC offset in minutes
(`None` for a naive datetime). -/
structure PyDateTime where
  year : Nat
  month : Nat
  day : Nat
  hour : Nat
  minute : Nat
  second : Nat
  micro : Nat
  tzOffsetMinutes : Option Int
deriving Repr, DecidableEq

/-- Whether a year is a leap year of the proleptic Gregorian calendar. -/
def isLeapYear (y : Nat) : Bool :=
  (y % 4 == 0 && y % 100 != 0) || y % 400 == 0

/-- Days in a month of the proleptic Gregorian calendar. -/
def daysInMonth (y m : Nat) : Nat :=
  if m = 2 then (if isLeapYear y then 29 else 28)
  else if m = 4 || m = 6 || m = 9 || m = 11 then 30
  else 31

/-- Days since 1970-01-01 of a proleptic Gregorian civil date
(Howard Hinnant's `days_from_civil`). -/
def daysFromCivil (y m d : Int) : Int :=
  let y' := y - (if m ≤ 2 then 1 else 0)
  let era := y'.ediv 400
  let yoe := y' - era * 400
  let doy := (153 * (m + (if m > 2 then -3 else 9)) + 2).ediv 5 + d - 1
  let doe := yoe * 365 + yoe.ediv 4 - yoe.ediv 100 + doy
  era * 146097 + doe - 719468

/-- Inverse of `daysFromCivil` (Howard Hinnant's `civil_from_days`). -/
def civilFromDays (z : Int) : Int × Int × Int :=
  let z' := z + 719468
  let era := z'.ediv 146097
  let doe := z' - era * 146097
  let yoe := (doe - doe.ediv 1460 + doe.ediv 36524 - doe.ediv 146096).ediv 365
  let y := yoe + era * 400
  let doy := doe - (365 * yoe + yoe.ediv 4 - yoe.ediv 100)
  let mp := (5 * doy + 2).ediv 153
  let d := doy - (153 * mp + 2).ediv 5 + 1
  let m := mp + (if mp < 10 then 3 else -9)
  (y + (if m ≤ 2 then 1 else 0), m, d)

/-- Shift a datetime by a whole number of minutes, rolling the calendar
fields as CPython datetime arithmetic does (seconds and microseconds
are unchanged; the year-range `OverflowError` is not modelled). -/
def addMinutes (dt : PyDateTime) (delta : Int) : PyDateTime :=
  let total := daysFromCivil dt.year dt.month dt.day * 1440
      + dt.hour * 60 + dt.minute + delta
  let days := total.ediv 1440
  let rem := total.emod 1440
  let (y, m, d) := civilFromDays days
  { dt with
    year := y.toNat, month := m.toNat, day := d.toNat,
    hour := (rem.ediv 60).toNat, minute := (rem.emod 60).toNat }

/-- Model of `dt.astimezone()` with the process-local zone modelled as the fixed
offset `tzLocal` (minutes east of UTC): an aware datetime is converted to
that offset; a naive datetime is assumed already in local time, so its
wall-clock fields are unchanged. -/
def astimezone (tzLocal : Int) (dt : PyDateTime) : PyDateTime :=
  match dt.tzOffsetMinutes with
  | Option.none => { dt with tzOffsetMinutes := some tzLocal }
  | some o => { (addMinutes dt (tzLocal - o)) with tzOffsetMinutes := some tzLocal }

/-- Decimal digit value of a character, if it is a digit. -/
def digitVal (c : Char) : Option Nat :=
  if c.isDigit then some (c.toNat - 48) else Option.none

/-- Parse exactly `n` leading decimal digits. -/
def parseDigits : Nat → List Char → Option (Nat × List Char)
  | 0, cs => some (0, cs)
  | _ + 1, [] => Option.none
  | n + 1, c :: cs => do
    let d ← digitVal c
    let (rest, cs') ← parseDigits n cs
    pure (d * 10 ^ n + rest, cs')

/-- CPython `_parse_hh_mm_ss_ff`: `HH[:MM[:SS[.fff|.ffffff]]]`, consuming
the whole string, with no range validation (the `datetime` constructor
validates afterwards). -/
def parseHms (cs : List Char) : Option (Nat × Nat × Nat × Nat) := do
  let (h, cs) ← parseDigits 2 cs
  match cs with
  | [] => pure (h, 0, 0, 0)
  | ':' :: cs => do
    let (m, cs) ← parseDigits 2 cs
    match cs with
    | [] => pure (h, m, 0, 0)
    | ':' :: cs => do
      let (s, cs) ← parseDigits 2 cs
      match cs with
      | [] => pure (h, m, s, 0)
      | '.' :: cs =>
        if cs.length = 3 then do
          let (f, cs') ← parseDigits 3 cs
          if cs'.isEmpty then pure (h, m, s, f * 1000) else Option.none
        else if cs.length = 6 then do
          let (f, cs') ← parseDigits 6 cs
          if cs'.isEmpty then pure (h, m, s, f) else Option.none
        else Option.none
      | _ => Option.none
    | _ => Option.none
  | _ => Option.none

/-- CPython `_parse_isoformat_time`: split off a timezone suffix at the
first `-` or `+`, parse the time part with `parseHms`, and parse a
`±HH:MM` suffix into an offset (the rarely used seconds-precision offset
forms are not modelled).  Range validation mirrors the `datetime` and
`timezone` constructors: hour ≤ 23, minute ≤ 59, second ≤ 59, and the
offset strictly smaller than one day. -/
def parseIsoTime (cs : List Char) : Option (Nat × Nat × Nat × Nat × Option Int) := do
  let tzIdx := cs.findIdx? (fun c => c = '-' || c = '+')
  let (timePart, tzPart) :=
    match tzIdx with
    | some i => (cs.take i, cs.drop i)
    | Option.none => (cs, [])
  let (h, m, s, f) ← parseHms timePart
  if h > 23 || m > 59 || s > 59 then Option.none
  else
    match tzPart with
    | [] => pure (h, m, s, f, Option.none)
    | signChar :: tzRest =>
      if tzRest.length ≠ 5 then Option.none
      else do
        let (th, tzRest) ← parseDigits 2 tzRest
        match tzRest with
        | ':' :: tzRest => do
          let (tm, tzRest) ← parseDigits 2 tzRest
          if !tzRest.isEmpty then Option.none
          else
            let mag : Int := th * 60 + tm
            if mag ≥ 1440 then Option.none
            else pure (h, m, s, f, some (if signChar = '-' then -mag else mag))
        | _ => Option.none

/-- Model of CPython ≤ 3.10 `datetime.fromisoformat`: the first ten
characters must be a valid `YYYY-MM-DD` date (year 1..9999), character
ten (any separator) is skipped, and the remainder, which must be
non-empty if present, is parsed by `parseIsoTime`. -/
def fromisoformat (s : String) : Option PyDateTime := do
  let cs := s.data
  if cs.length < 10 then Option.none
  else do
    let (y, rest) ← parseDigits 4 cs
    match rest with
    | '-' :: rest => do
      let (m, rest) ← parseDigits 2 rest
      match rest with
      | '-' :: rest => do
        let (d, rest) ← parseDigits 2 rest
        if y < 1 || m < 1 || m > 12 || d < 1 || d > daysInMonth y m then Option.none
        else
          match rest with
          | [] => pure ⟨y, m, d, 0, 0, 0, 0, Option.none⟩
          | _sep :: timeChars =>
            if timeChars.isEmpty then Option.none
            else do
              let (h, mi, sec, f, tz) ← parseIsoTime timeChars
              pure ⟨y, m, d, h, mi, sec, f, tz⟩
      | _ => Option.none
    | _ => Option.none

/-- Replace every occurrence of a single character, left to right. -/
def replaceChar (pat : Char) (rep : List Char) : List Char → List Char
  | [] => []
  | c :: cs =>
    if c = pat then rep ++ replaceChar pat rep cs
    else c :: replaceChar pat rep cs

/-- Python `s.replace(pat, rep)` for a one-character pattern — the only
shape the source uses (`event_date.replace('Z', '+00:00')`); occurrences
of a one-character pattern cannot overlap, so character-wise replacement
is exactly CPython's left-to-right non-overlapping replacement. -/
def pyReplace (s : String) (pat : Char) (rep : String) : String :=
  ⟨replaceChar pat rep.data s.data⟩

/-- Zero-padded two-digit decimal rendering (`%m`, `%d`, `%H`, `%M`). -/
def pad2 (n : Nat) : String :=
  if n < 10 then "0" ++ toString n else toString n

/-- Zero-padded four-digit decimal rendering (`%Y`). -/
def pad4 (n : Nat) : String :=
  if n < 10 then "000" ++ toString n
  else if n < 100 then "00" ++ toString n
  else if n < 1000 then "0" ++ toString n
  else toString n

/-- Model of `dt.strftime('%Y-%m-%d')`. -/
def fmtDate (dt : PyDateTime) : String :=
  pad4 dt.year ++ "-" ++ pad2 dt.month ++ "-" ++ pad2 dt.day

/-- Model of `dt.strftime('%H:%M')`. -/
def fmtHM (dt : PyDateTime) : String :=
  pad2 dt.hour ++ ":" ++ pad2 dt.minute

/-- Model of `dt.astimezone().strftime('%Y-%m-%d %H:%M')` with the local zone
modelled as the fixed offset `tzLocal`. -/
def fmtLocal (tzLocal : Int) (dt : PyDateTime) : String :=
  let l := astimezone tzLocal dt
  fmtDate l ++ " " ++ fmtHM l

/-- The UTC wall-clock time `HH:MM` of the instant an aware datetime
denotes (used to state what the spec calls "the UTC time"; a naive
datetime is taken at face value). -/
def utcHM (dt : PyDateTime) : String :=
  match dt.tzOffsetMinutes with
  | Option.none => fmtHM dt
  | some o => fmtHM (addMinutes dt (-o))

/-- The name-resolution block of `get_fixtures` (`db_reader.py` lines
150–158): for each of the three roles, if the traditional-Chinese name
is falsy it is overwritten with `fixture.get(<english name>, <placeholder>)`
— which, exactly as in the source, yields the placeholder only when the
English-name key is absent, not when it is present and `None`. -/
def resolveNames (fixture : Row) : Row :=
  let fixture :=
    if (fixture.getD "league_name_tc" .none).truthy then fixture
    else fixture.set "league_name_tc" (fixture.getD "league_name_en" (.str "未知聯賽"))
  let fixture :=
    if (fixture.getD "home_team_name_tc" .none).truthy then fixture
    else fixture.set "home_team_name_tc" (fixture.getD "home_team_name_en" (.str "未知主隊"))
  if (fixture.getD "away_team_name_tc" .none).truthy then fixture
  else fixture.set "away_team_name_tc" (fixture.getD "away_team_name_en" (.str "未知客隊"))

/-- The timestamp block of `get_fixtures` (`db_reader.py` lines 160–171):
when `event_date` is truthy, try to parse it (after replacing `Z` with
`+00:00`) and set the three derived fields; the bare `except` maps any
failure — a malformed string, or a non-string value (whose `.replace`
raises `AttributeError`) — to the degraded fields.  When `event_date` is
falsy, no derived field is set at all. -/
def formatEventDate (tzLocal : Int) (fixture : Row) : Row :=
  let event_date := fixture.getD "event_date" .none
  if event_date.truthy then
    match event_date with
    | .str s =>
      match fromisoformat (pyReplace s 'Z' "+00:00") with
      | some dt =>
        ((fixture.set "event_date_formatted" (.str (fmtDate dt))).set
          "event_time_formatted" (.str (fmtHM dt))).set
          "event_datetime_local" (.str (fmtLocal tzLocal dt))
      | Option.none =>
        ((fixture.set "event_date_formatted" event_date).set
          "event_time_formatted" (.str "00:00")).set
          "event_datetime_local" event_date
    | _ =>
      ((fixture.set "event_date_formatted" event_date).set
        "event_time_formatted" (.str "00:00")).set
        "event_datetime_local" event_date
  else fixture

/-- One iteration of the row loop of `get_fixtures` (`db_reader.py`
lines 144–173): `.ok (some f)` when the row is retained (transformed to
`f`), `.ok none` when it is silently skipped, `.error` when the body
raises — which happens exactly when `int(league_api_id)` fails on a
truthy non-numeric identifier. -/
def normalizeRow (allow : List Int) (tzLocal : Int) (row : Row) :
    Except String (Option Row) :=
  let league_api_id := row.getD "league_api_id" .none
  if league_api_id.truthy then
    match pyInt league_api_id with
    | .error e => .error e
    | .ok i =>
      if allow.contains i then
        .ok (some (formatEventDate tzLocal (resolveNames row)))
      else .ok Option.none
  else .ok Option.none

/-- The full filtering loop of `get_fixtures` over the rows the cursor
returned, in order; the first raising row aborts the whole call. -/
def normalizeFixtures (allow : List Int) (tzLocal : Int) :
    List Row → Except String (List Row)
  | [] => .ok []
  | row :: rows =>
    match normalizeRow allow tzLocal row with
    | .error e => .error e
    | .ok o =>
      match normalizeFixtures allow tzLocal rows with
      | .error e => .error e
      | .ok rest =>
        match o with
        | some f => .ok (f :: rest)
        | Option.none => .ok rest

/-- The four candidate locations probed by `get_db_path`
(`db_reader.py` lines 62–67), relative to the repository layout. -/
def possible_db_paths : List String :=
  [ "data_processor/../api_football_sync/fixtures.db",
    "data_processor/../fixtures.db",
    "/root/.openclaw/workspace/api_football_sync/fixtures.db",
    "/root/.openclaw/workspace/fixtures.db" ]

/-- Function `get_db_path` (`db_reader.py` lines 59–74) over an explicit
filesystem-existence predicate: the first existing candidate, else a
raised `FileNotFoundError`. -/
def get_db_path (fsExists : String → Bool) : Except String String :=
  match possible_db_paths.find? fsExists with
  | some p => .ok p
  | Option.none => .error "FileNotFoundError: 無法找到fixtures.db文件"

/-- Function `get_fixtures` (`db_reader.py` lines 76–196): locate the database
(raising when no candidate exists), then run the filtering /
normalization loop over the rows the query returned.  The SQL query
itself (date window, status filter, joins, ordering) executes in the
storage engine and is abstracted as the `rows` input; the allow-list is
the module-level `TARGET_LEAGUE_IDS`, passed explicitly; the
per-league statistics block (lines 177–193) only logs and is omitted. -/
def get_fixtures (fsExists : String → Bool) (allow : List Int)
    (tzLocal : Int) (rows : List Row) : Except String (List Row) := do
  let _ ← get_db_path fsExists
  normalizeFixtures allow tzLocal rows

/-- One league group of `get_fixtures_by_league`: the dict
`{'id', 'name', 'country', 'fixtures'}` built at first sight of a key. -/
structure LeagueGroup where
  id : PyVal
  name : PyVal
  country : PyVal
  fixtures : List Row
deriving Repr

/-- Append a fixture to the (unique) group with this key. -/
def appendToLeague (key : PyVal) (f : Row) :
    List (PyVal × LeagueGroup) → List (PyVal × LeagueGroup)
  | [] => []
  | (k, g) :: rest =>
    if k == key then (k, { g with fixtures := g.fixtures ++ [f] }) :: rest
    else (k, g) :: appendToLeague key f rest

/-- The loop body of `get_fixtures_by_league` (`db_reader.py` lines
212–224): create the group on first sight of `league_api_id` (seeding
name and country from that fixture), then append the fixture. -/
def addFixtureToLeagues (acc : List (PyVal × LeagueGroup)) (f : Row) :
    List (PyVal × LeagueGroup) :=
  let league_id := f.getD "league_api_id" .none
  let league_name := f.getD "league_name_tc" (.str "未知聯賽")
  let acc :=
    if acc.any (fun p => p.1 == league_id) then acc
    else acc ++ [(league_id,
      { id := league_id, name := league_name,
        country := f.getD "league_country" (.str ""), fixtures := [] })]
  appendToLeague league_id f acc

/-- Kind rank of a value; Python numbers (`bool` is an `int` subtype)
share a rank because they are mutually comparable. -/
def pyKind : PyVal → Nat
  | .none => 0
  | .bool _ => 1
  | .int _ => 1
  | .str _ => 2
  | .list _ => 3
  | .dict _ => 4

/-- Numeric value of a number-kinded value. -/
def pyNum : PyVal → Int
  | .bool b => if b then 1 else 0
  | .int z => z
  | _ => 0

/-- String value of a string-kinded value. -/
def pyStrVal : PyVal → String
  | .str s => s
  | _ => ""

/-- Holds exactly on string values (used to state the typing
hypotheses under which Python's `sorted` cannot raise). -/
def PyVal.isStr : PyVal → Bool
  | .str _ => true
  | _ => false

/-- A total Boolean comparison on `PyVal` used to model the key
comparisons Python's `sorted` performs in the two grouping functions.
On two values of the same comparable kind it is exactly Python's `<=`
(strings by code point, numbers by value, with `bool` as 0/1); on
cross-kind pairs — where CPython would raise `TypeError` — it totalises
by kind rank so that the sort is defined.  Every ordering theorem below
is stated under the hypothesis that the keys are strings, where this
relation and CPython agree. -/
def pyValLe (a b : PyVal) : Bool :=
  if pyKind a < pyKind b then true
  else if pyKind b < pyKind a then false
  else if pyKind a = 1 then decide (pyNum a ≤ pyNum b)
  else if pyKind a = 2 then decide (pyStrVal a ≤ pyStrVal b)
  else true

/-- Function `get_fixtures_by_league` (`db_reader.py` lines 198–228) on an
explicit fixture list: fold the grouping loop, then
`dict(sorted(leagues.items(), key=lambda x: x[1]['name']))` — a stable
sort of the groups by display name. -/
def get_fixtures_by_league (fixtures : List Row) : List (PyVal × LeagueGroup) :=
  (fixtures.foldl addFixtureToLeagues []).mergeSort
    (fun a b => pyValLe a.2.name b.2.name)

/-- Append a fixture to the (unique) date group with this key. -/
def appendToDate (key : PyVal) (f : Row) :
    List (PyVal × List Row) → List (PyVal × List Row)
  | [] => []
  | (k, g) :: rest =>
    if k == key then (k, g ++ [f]) :: rest
    else (k, g) :: appendToDate key f rest

/-- The loop body of `get_fixtures_by_date` (`db_reader.py` lines
244–250): key the fixture by `event_date_formatted` (placeholder
`未知日期` when absent), create the key's empty list on first sight,
and append the fixture to it. -/
def addFixtureToDates (acc : List (PyVal × List Row)) (f : Row) :
    List (PyVal × List Row) :=
  let date_key := f.getD "event_date_formatted" (.str "未知日期")
  let acc :=
    if acc.any (fun p => p.1 == date_key) then acc
    else acc ++ [(date_key, [])]
  appendToDate date_key f acc

/-- Function `get_fixtures_by_date` (`db_reader.py` lines 230–254) on an explicit
fixture list: fold the grouping loop, then `dict(sorted(dates.items()))`
— a stable sort by key (tuple comparison never reaches the second
component because dict keys are unique). -/
def get_fixtures_by_date (fixtures : List Row) : List (PyVal × List Row) :=
  (fixtures.foldl addFixtureToDates []).mergeSort
    (fun a b => pyValLe a.1 b.1)

/-- The per-fixture body of `save_fixtures_to_json` (`db_reader.py`
lines 266–277): every field is copied verbatim except a truthy
`raw_data`, which — when it is a string — is replaced by `json.loads` of
it, falling back to `str(value)` (the string itself) when decoding
raises; a truthy non-string `raw_data` is copied as is.  The decoder is
the explicit parameter `loads` (`none` models a raised decode error). -/
def serialEntry (loads : String → Option PyVal) (p : String × PyVal) :
    String × PyVal :=
  if p.1 = "raw_data" ∧ p.2.truthy then
    match p.2 with
    | .str s =>
      match loads s with
      | some decoded => (p.1, decoded)
      | Option.none => (p.1, .str s)
    | v => (p.1, v)
  else p

/-- The whole-fixture copy loop of `save_fixtures_to_json`
(`db_reader.py` lines 268–276). -/
def serializeFixture (loads : String → Option PyVal) (fixture : Row) : Row :=
  fixture.map (serialEntry loads)

/-- Function `save_fixtures_to_json` (`db_reader.py` lines 256–282) up to the
file write: the JSON-safe list it serializes. -/
def save_fixtures_to_json (loads : String → Option PyVal) (fixtures : List Row) :
    List Row :=
  fixtures.map (serializeFixture loads)

/-- Total number of fixtures across the competition groups. -/
def sumSizesLeague (gs : List (PyVal × LeagueGroup)) : Nat :=
  (gs.map (fun p => p.2.fixtures.length)).sum

/-- Total number of fixtures across the date groups. -/
def sumSizesDate (gs : List (PyVal × List Row)) : Nat :=
  (gs.map (fun p => p.2.length)).sum

/-- A raw joined row with a non-numeric (but truthy) competition
identifier, as SQLite's dynamic typing permits in the `api_id` column. -/
def rowNonNumericId : Row :=
  [("id", .int 4), ("league_api_id", .str "abc"),
   ("league_name_tc", .str "某聯賽"), ("event_date", .str "2024-03-01T15:00:00Z")]

/-- A raw joined row whose home-team join produced NULL names (the
`home_team_name_tc` / `home_team_name_en` columns are present and NULL),
with an in-scope competition. -/
def rowNullHomeNames : Row :=
  [("id", .int 10), ("league_api_id", .int 39),
   ("league_name_tc", .str "英超"), ("league_name_en", .str "Premier League"),
   ("home_team_name_tc", PyVal.none), ("home_team_name_en", PyVal.none),
   ("away_team_name_tc", .str "利物浦"), ("away_team_name_en", .str "Liverpool"),
   ("event_date", .str "2024-03-01T15:00:00Z")]

/-- A retained row whose timestamp carries a non-UTC offset. -/
def rowOffsetTimestamp : Row :=
  [("id", .int 11), ("league_api_id", .int 39),
   ("league_name_tc", .str "英超"),
   ("event_date", .str "2024-03-01T23:30:00+08:00")]

/-- A retained row whose timestamp is malformed. -/
def rowBadTimestamp : Row :=
  [("id", .int 12), ("league_api_id", .int 61),
   ("league_name_tc", .str "法甲"),
   ("event_date", .str "not-a-date")]

/-- A retained row with a UTC (`Z`-suffixed) timestamp. -/
def rowUtcTimestamp : Row :=
  [("id", .int 13), ("league_api_id", .int 39),
   ("league_name_tc", .str "英超"),
   ("event_date", .str "2024-03-01T10:00:00Z")]

/-- A retained row whose scheduling timestamp column is NULL. -/
def rowNullTimestamp : Row :=
  [("id", .int 14), ("league_api_id", .int 39),
   ("league_name_tc", .str "英超"), ("event_date", PyVal.none)]

/-- A fixture whose raw payload is JSON-encoded text. -/
def rowRawPayload : Row :=
  [("id", .int 1), ("raw_data", .str "[1, 2]")]

/-- Normalized fixtures in shuffled order (names 乙級/甲級/丙級 sort as
丙級 < 乙級 < 甲級 by code point; dates are out of order too). -/
def fxA : Row :=
  [("league_api_id", .int 40), ("league_name_tc", .str "乙級"),
   ("event_date_formatted", .str "2024-03-02")]

def fxB : Row :=
  [("league_api_id", .int 39), ("league_name_tc", .str "甲級"),
   ("event_date_formatted", .str "2024-03-01")]

def fxC : Row :=
  [("league_api_id", .int 41), ("league_name_tc", .str "丙級"),
   ("event_date_formatted", .str "2024-03-03")]

/-! ## Helper lemmas -/

mutual

theorem PyVal.beq_refl : ∀ v : PyVal, PyVal.beq v v = true
  | .none => rfl
  | .bool b => by simp [PyVal.beq]
  | .int z => by simp [PyVal.beq]
  | .str s => by simp [PyVal.beq]
  | .list xs => by simpa [PyVal.beq] using PyVal.beqList_refl xs
  | .dict xs => by simpa [PyVal.beq] using PyVal.beqPairs_refl xs

theorem PyVal.beqList_refl : ∀ xs : List PyVal, PyVal.beqList xs xs = true
  | [] => rfl
  | x :: xs => by
    simp only [PyVal.beqList, Bool.and_eq_true]
    exact ⟨PyVal.beq_refl x, PyVal.beqList_refl xs⟩

theorem PyVal.beqPairs_refl :
    ∀ xs : List (String × PyVal), PyVal.beqPairs xs xs = true
  | [] => rfl
  | (k, x) :: xs => by
    simp only [PyVal.beqPairs, Bool.and_eq_true]
    exact ⟨⟨by simp, PyVal.beq_refl x⟩, PyVal.beqPairs_refl xs⟩

end

theorem PyVal.beq_self (v : PyVal) : (v == v) = true :=
  PyVal.beq_refl v

theorem Row.find?_set_ne (r : Row) (k' k : String) (v : PyVal) (h : k' ≠ k) :
    (r.set k' v).find? k = r.find? k := by
  induction r with
  | nil => simp [Row.set, Row.find?, h]
  | cons p rest ih =>
    obtain ⟨k₀, v₀⟩ := p
    by_cases h₀ : k₀ = k'
    · subst h₀
      simp [Row.set, Row.find?, h]
    · simp only [Row.set, if_neg h₀, Row.find?]
      by_cases h₁ : k₀ = k
      · simp [h₁]
      · simp [h₁, ih]

theorem Row.getD_set_ne (r : Row) (k' k : String) (v d : PyVal) (h : k' ≠ k) :
    (r.set k' v).getD k d = r.getD k d := by
  simp [Row.getD, Row.find?_set_ne r k' k v h]

theorem Row.find?_set_self (r : Row) (k : String) (v : PyVal) :
    (r.set k v).find? k = some v := by
  induction r with
  | nil => simp [Row.set, Row.find?]
  | cons p rest ih =>
    obtain ⟨k₀, v₀⟩ := p
    by_cases h₀ : k₀ = k
    · simp [Row.set, Row.find?, h₀]
    · simp [Row.set, Row.find?, h₀, ih]

theorem Row.getD_set_self (r : Row) (k : String) (v d : PyVal) :
    (r.set k v).getD k d = v := by
  simp [Row.getD, Row.find?_set_self]

theorem Row.eraseKey_set_self (r : Row) (k : String) (v : PyVal) :
    (r.set k v).eraseKey k = r.eraseKey k := by
  induction r with
  | nil => simp [Row.set, Row.eraseKey]
  | cons p rest ih =>
    obtain ⟨k₀, v₀⟩ := p
    by_cases h₀ : k₀ = k
    · simp [Row.set, Row.eraseKey, h₀]
    · simp [Row.set, Row.eraseKey, h₀, ih]

/-- Lookup at another key looks through a conditional `set`. -/
theorem Row.find?_ite_set (c : Prop) [Decidable c] (r : Row)
    (kset k : String) (v : PyVal) (h : kset ≠ k) :
    (if c then r else r.set kset v).find? k = r.find? k := by
  split
  · rfl
  · exact Row.find?_set_ne r kset k v h

/-- Resolution of names touches only the three `name_tc` keys. -/
theorem resolveNames_find?_other (r : Row) (k : String)
    (h1 : k ≠ "league_name_tc") (h2 : k ≠ "home_team_name_tc")
    (h3 : k ≠ "away_team_name_tc") :
    (resolveNames r).find? k = r.find? k := by
  unfold resolveNames
  dsimp only
  rw [Row.find?_ite_set _ _ _ _ _ (Ne.symm h3),
    Row.find?_ite_set _ _ _ _ _ (Ne.symm h2),
    Row.find?_ite_set _ _ _ _ _ (Ne.symm h1)]

theorem resolveNames_getD_other (r : Row) (k : String) (d : PyVal)
    (h1 : k ≠ "league_name_tc") (h2 : k ≠ "home_team_name_tc")
    (h3 : k ≠ "away_team_name_tc") :
    (resolveNames r).getD k d = r.getD k d := by
  simp [Row.getD, resolveNames_find?_other r k h1 h2 h3]

theorem pyValLe_total (a b : PyVal) : (pyValLe a b || pyValLe b a) = true := by
  unfold pyValLe
  rcases Nat.lt_trichotomy (pyKind a) (pyKind b) with h | h | h
  · simp [h]
  · rw [h]
    simp only [Nat.lt_irrefl, if_false]
    by_cases hk1 : pyKind b = 1
    · rcases Int.le_total (pyNum a) (pyNum b) with h' | h'
      · simp [hk1, h']
      · simp [hk1, h']
    · by_cases hk2 : pyKind b = 2
      · rcases le_total (pyStrVal a) (pyStrVal b) with h' | h'
        · simp [hk1, hk2, h']
        · simp [hk1, hk2, h']
      · simp [hk1, hk2]
  · simp [h, Nat.lt_asymm h]

theorem pyValLe_trans (a b c : PyVal) (hab : pyValLe a b = true)
    (hbc : pyValLe b c = true) : pyValLe a c = true := by
  unfold pyValLe at *
  by_cases h1 : pyKind a < pyKind b
  · by_cases h2 : pyKind b < pyKind c
    · simp [Nat.lt_trans h1 h2]
    · rw [if_neg h2] at hbc
      by_cases h3 : pyKind c < pyKind b
      · rw [if_pos h3] at hbc
        exact absurd hbc (by simp)
      · have hbceq : pyKind b = pyKind c :=
          Nat.le_antisymm (Nat.not_lt.mp h3) (Nat.not_lt.mp h2)
        simp [hbceq ▸ h1]
  · rw [if_neg h1] at hab
    by_cases h1' : pyKind b < pyKind a
    · rw [if_pos h1'] at hab
      exact absurd hab (by simp)
    · have hba : pyKind a = pyKind b :=
        Nat.le_antisymm (Nat.not_lt.mp h1') (Nat.not_lt.mp h1)
      rw [if_neg h1'] at hab
      by_cases h2 : pyKind b < pyKind c
      · simp [hba ▸ h2]
      · rw [if_neg h2] at hbc
        by_cases h3 : pyKind c < pyKind b
        · rw [if_pos h3] at hbc
          exact absurd hbc (by simp)
        · have hbceq : pyKind b = pyKind c :=
            Nat.le_antisymm (Nat.not_lt.mp h3) (Nat.not_lt.mp h2)
          rw [if_neg h3] at hbc
          have hac : pyKind a = pyKind c := hba.trans hbceq
          have nh1 : ¬ pyKind a < pyKind c := by omega
          have nh2 : ¬ pyKind c < pyKind a := by omega
          rw [if_neg nh1, if_neg nh2]
          rw [← hba] at hbc
          by_cases hk1 : pyKind a = 1
          · rw [if_pos hk1] at hab hbc ⊢
            exact decide_eq_true
              (Int.le_trans (of_decide_eq_true hab) (of_decide_eq_true hbc))
          · rw [if_neg hk1] at hab hbc ⊢
            by_cases hk2 : pyKind a = 2
            · rw [if_pos hk2] at hab hbc ⊢
              exact decide_eq_true
                (le_trans (of_decide_eq_true hab) (of_decide_eq_true hbc))
            · rw [if_neg hk2]

theorem pyValLe_str (s t : String) :
    pyValLe (.str s) (.str t) = true ↔ s ≤ t := by
  simp [pyValLe, pyKind, pyStrVal]

theorem sumSizesLeague_appendToLeague (key : PyVal) (f : Row)
    (l : List (PyVal × LeagueGroup)) (h : l.any (fun p => p.1 == key) = true) :
    sumSizesLeague (appendToLeague key f l) = sumSizesLeague l + 1 := by
  induction l with
  | nil => simp at h
  | cons p rest ih =>
    obtain ⟨k, g⟩ := p
    by_cases hk : (k == key) = true
    · simp [appendToLeague, hk, sumSizesLeague]
      omega
    · simp only [List.any_cons, Bool.or_eq_true] at h
      rcases h with h | h
      · exact absurd h hk
      · unfold appendToLeague
        rw [if_neg hk]
        simp only [sumSizesLeague, List.map_cons, List.sum_cons] at ih ⊢
        rw [ih h]
        omega

theorem sumSizesDate_appendToDate (key : PyVal) (f : Row)
    (l : List (PyVal × List Row)) (h : l.any (fun p => p.1 == key) = true) :
    sumSizesDate (appendToDate key f l) = sumSizesDate l + 1 := by
  induction l with
  | nil => simp at h
  | cons p rest ih =>
    obtain ⟨k, g⟩ := p
    by_cases hk : (k == key) = true
    · simp [appendToDate, hk, sumSizesDate]
      omega
    · simp only [List.any_cons, Bool.or_eq_true] at h
      rcases h with h | h
      · exact absurd h hk
      · unfold appendToDate
        rw [if_neg hk]
        simp only [sumSizesDate, List.map_cons, List.sum_cons] at ih ⊢
        rw [ih h]
        omega

theorem sumSizesLeague_add (acc : List (PyVal × LeagueGroup)) (f : Row) :
    sumSizesLeague (addFixtureToLeagues acc f) = sumSizesLeague acc + 1 := by
  unfold addFixtureToLeagues
  dsimp only
  by_cases h : acc.any (fun p => p.1 == f.getD "league_api_id" PyVal.none) = true
  · rw [if_pos h]
    exact sumSizesLeague_appendToLeague _ _ _ h
  · rw [if_neg h]
    rw [sumSizesLeague_appendToLeague _ _ _ (by simp [PyVal.beq_self])]
    simp [sumSizesLeague]

theorem sumSizesDate_add (acc : List (PyVal × List Row)) (f : Row) :
    sumSizesDate (addFixtureToDates acc f) = sumSizesDate acc + 1 := by
  unfold addFixtureToDates
  dsimp only
  by_cases h : acc.any (fun p => p.1 == f.getD "event_date_formatted" (.str "未知日期")) = true
  · rw [if_pos h]
    exact sumSizesDate_appendToDate _ _ _ h
  · rw [if_neg h]
    rw [sumSizesDate_appendToDate _ _ _ (by simp [PyVal.beq_self])]
    simp [sumSizesDate]

theorem sumSizesLeague_foldl (fixtures : List Row)
    (acc : List (PyVal × LeagueGroup)) :
    sumSizesLeague (fixtures.foldl addFixtureToLeagues acc)
      = sumSizesLeague acc + fixtures.length := by
  induction fixtures generalizing acc with
  | nil => simp
  | cons f rest ih =>
    simp only [List.foldl_cons, List.length_cons, ih, sumSizesLeague_add]
    omega

theorem sumSizesDate_foldl (fixtures : List Row)
    (acc : List (PyVal × List Row)) :
    sumSizesDate (fixtures.foldl addFixtureToDates acc)
      = sumSizesDate acc + fixtures.length := by
  induction fixtures generalizing acc with
  | nil => simp
  | cons f rest ih =>
    simp only [List.foldl_cons, List.length_cons, ih, sumSizesDate_add]
    omega

/-- Appending to a league group keeps every group's key and display name. -/
theorem appendToLeague_names (key : PyVal) (f : Row)
    (l : List (PyVal × LeagueGroup)) :
    (appendToLeague key f l).map (fun p => p.2.name) = l.map (fun p => p.2.name) := by
  induction l with
  | nil => rfl
  | cons p rest ih =>
    obtain ⟨k, g⟩ := p
    by_cases hk : (k == key) = true
    · simp [appendToLeague, hk]
    · simp [appendToLeague, hk, ih]

/-- Appending to a date group keeps every group's key. -/
theorem appendToDate_keys (key : PyVal) (f : Row)
    (l : List (PyVal × List Row)) :
    (appendToDate key f l).map Prod.fst = l.map Prod.fst := by
  induction l with
  | nil => rfl
  | cons p rest ih =>
    obtain ⟨k, g⟩ := p
    by_cases hk : (k == key) = true
    · simp [appendToDate, hk]
    · simp [appendToDate, hk, ih]

/-- Every display name in the league grouping accumulator comes from the
initial accumulator or was seeded from some processed fixture. -/
theorem leagues_names_from_fixtures (fixtures : List Row)
    (acc : List (PyVal × LeagueGroup)) (n : PyVal)
    (h : n ∈ (fixtures.foldl addFixtureToLeagues acc).map (fun p => p.2.name)) :
    n ∈ acc.map (fun p => p.2.name)
      ∨ ∃ f ∈ fixtures, n = f.getD "league_name_tc" (.str "未知聯賽") := by
  induction fixtures generalizing acc with
  | nil => exact Or.inl h
  | cons f rest ih =>
    simp only [List.foldl_cons] at h
    rcases ih (addFixtureToLeagues acc f) h with h' | ⟨f', hf', hn⟩
    · unfold addFixtureToLeagues at h'
      dsimp only at h'
      rw [appendToLeague_names] at h'
      by_cases hmem : acc.any (fun p => p.1 == f.getD "league_api_id" PyVal.none) = true
      · rw [if_pos hmem] at h'
        exact Or.inl h'
      · rw [if_neg hmem] at h'
        simp only [List.map_append, List.map_cons, List.map_nil,
          List.mem_append, List.mem_singleton] at h'
        rcases h' with h' | h'
        · exact Or.inl h'
        · exact Or.inr ⟨f, by simp, h'⟩
    · exact Or.inr ⟨f', by simp [hf'], hn⟩

/-- Every key in the date grouping accumulator comes from the initial
accumulator or from some processed fixture. -/
theorem dates_keys_from_fixtures (fixtures : List Row)
    (acc : List (PyVal × List Row)) (n : PyVal)
    (h : n ∈ (fixtures.foldl addFixtureToDates acc).map Prod.fst) :
    n ∈ acc.map Prod.fst
      ∨ ∃ f ∈ fixtures, n = f.getD "event_date_formatted" (.str "未知日期") := by
  induction fixtures generalizing acc with
  | nil => exact Or.inl h
  | cons f rest ih =>
    simp only [List.foldl_cons] at h
    rcases ih (addFixtureToDates acc f) h with h' | ⟨f', hf', hn⟩
    · unfold addFixtureToDates at h'
      dsimp only at h'
      rw [appendToDate_keys] at h'
      by_cases hmem : acc.any (fun p => p.1 == f.getD "event_date_formatted" (.str "未知日期")) = true
      · rw [if_pos hmem] at h'
        exact Or.inl h'
      · rw [if_neg hmem] at h'
        simp only [List.map_append, List.map_cons, List.map_nil,
          List.mem_append, List.mem_singleton] at h'
        rcases h' with h' | h'
        · exact Or.inl h'
        · exact Or.inr ⟨f, by simp, h'⟩
    · exact Or.inr ⟨f', by simp [hf'], hn⟩


/-! ## Claim theorems -/

/-- C4 counterexample: the claim says loading the allow-list "never
raises, for every failure mode … (missing module, missing file,
malformed data)", but the module-level loader catches only
`ImportError`; a malformed mapping (e.g. an imported name without
`.keys()`, raising `AttributeError`) propagates and aborts the run. -/
theorem c4_counterexample :
    loadTargetLeagueIds
        (.otherError "AttributeError: 'int' object has no attribute 'keys'")
      = .error "AttributeError: 'int' object has no attribute 'keys'" := rfl

/-- C4 (amended): loading the allow-list substitutes the fixed built-in
identifier set exactly when the failure is an `ImportError` (missing
module or missing attribute); a successful import yields the mapping's
keys; any other exception raised while loading (malformed data)
propagates and is not absorbed. -/
theorem c4_allowlist_fallback_amended :
    (∀ msg, loadTargetLeagueIds (.importError msg) = .ok FALLBACK_LEAGUE_IDS)
    ∧ (∀ mapping, loadTargetLeagueIds (.ok mapping) = .ok (mapping.map Prod.fst))
    ∧ (∀ msg, loadTargetLeagueIds (.otherError msg) = .error msg) :=
  ⟨fun _ => rfl, fun _ => rfl, fun _ => rfl⟩

/-- C5: when no candidate database path exists, `get_fixtures` raises
`FileNotFoundError` (the spec's `DataSourceUnavailable`) and produces no
fixture sequence — the error carries no partial result. -/
theorem c5_db_unavailable (fsExists : String → Bool) (allow : List Int)
    (tzLocal : Int) (rows : List Row)
    (h : ∀ p ∈ possible_db_paths, fsExists p = false) :
    get_fixtures fsExists allow tzLocal rows
      = .error "FileNotFoundError: 無法找到fixtures.db文件" := by
  have hfind : possible_db_paths.find? fsExists = Option.none :=
    List.find?_eq_none.mpr (fun x hx => by simp [h x hx])
  unfold get_fixtures get_db_path
  rw [hfind]
  rfl

/-- Witness for C5 at the filesystem with no files at all. -/
theorem c5_db_unavailable_witness :
    (∀ p ∈ possible_db_paths, (fun _ => false) p = false)
    ∧ get_fixtures (fun _ => false) FALLBACK_LEAGUE_IDS 0 [rowUtcTimestamp]
        = .error "FileNotFoundError: 無法找到fixtures.db文件" :=
  ⟨fun _ _ => rfl, c5_db_unavailable (fun _ => false) FALLBACK_LEAGUE_IDS 0
    [rowUtcTimestamp] (fun _ _ => rfl)⟩

/-- C7: both groupings partition their input — the group sizes of
`get_fixtures_by_league` and of `get_fixtures_by_date` each sum to the
number of input fixtures, for every input list — and an empty input
yields an empty mapping from both. -/
theorem c7_grouping_partition :
    (∀ fixtures : List Row,
      sumSizesLeague (get_fixtures_by_league fixtures) = fixtures.length
      ∧ sumSizesDate (get_fixtures_by_date fixtures) = fixtures.length)
    ∧ get_fixtures_by_league [] = [] ∧ get_fixtures_by_date [] = [] := by
  refine ⟨fun fixtures => ⟨?_, ?_⟩, by simp [get_fixtures_by_league],
    by simp [get_fixtures_by_date]⟩
  · unfold get_fixtures_by_league sumSizesLeague
    rw [((List.mergeSort_perm _ _).map _).sum_eq]
    simpa [sumSizesLeague] using sumSizesLeague_foldl fixtures []
  · unfold get_fixtures_by_date sumSizesDate
    rw [((List.mergeSort_perm _ _).map _).sum_eq]
    simpa [sumSizesDate] using sumSizesDate_foldl fixtures []

/-- C2 is contradicted by the code: on a retained row whose home-team
localized and English names are both present-but-NULL (a possible LEFT
JOIN result), the resolved `home_team_name_tc` is `None` — not the
placeholder `未知主隊` — because `fixture.get('home_team_name_en',
'未知主隊')` returns the stored `None` when the key is present.  The
placeholder defaults in the source are unreachable for rows produced by
the SELECT, whose column keys always exist, so the fallback chain is
not total and a resolved display name can be null. -/
theorem c2_null_name_bug :
    (normalizeRow FALLBACK_LEAGUE_IDS 0 rowNullHomeNames).map
        (Option.map (fun f => f.find? "home_team_name_tc"))
      = .ok (some (some PyVal.none)) := by
  rfl

/-- C1 counterexample: the claim says a row with a non-numeric
competition identifier is dropped and "the operation does not raise on
such a row", but `int(league_api_id)` on a truthy non-numeric
identifier raises `ValueError` (there is no surrounding handler), so
`get_fixtures` aborts instead of dropping the row. -/
theorem c1_counterexample :
    normalizeFixtures FALLBACK_LEAGUE_IDS 0 [rowNonNumericId]
      = .error "ValueError: invalid literal for int() with base 10: abc" := rfl

/-- C1 (amended): a row whose competition identifier is absent or falsy
(`None`, empty string, zero) is dropped silently; a row whose identifier
converts with `int()` is retained iff the identifier is truthy and the
converted integer is in the allow-list; a row whose identifier is truthy
but does not convert makes the operation raise (it is not dropped). -/
theorem c1_membership_amended (allow : List Int) (tzLocal : Int) (row : Row) :
    ((row.getD "league_api_id" PyVal.none).truthy = false →
      normalizeRow allow tzLocal row = .ok Option.none)
    ∧ (∀ i, pyInt (row.getD "league_api_id" PyVal.none) = .ok i →
        ((∃ f, normalizeRow allow tzLocal row = .ok (some f)) ↔
          ((row.getD "league_api_id" PyVal.none).truthy = true ∧ i ∈ allow)))
    ∧ (∀ e, (row.getD "league_api_id" PyVal.none).truthy = true →
        pyInt (row.getD "league_api_id" PyVal.none) = .error e →
        normalizeRow allow tzLocal row = .error e) := by
  refine ⟨?_, ?_, ?_⟩
  · intro h
    unfold normalizeRow
    dsimp only
    rw [if_neg (by simp [h])]
  · intro i hi
    by_cases ht : (row.getD "league_api_id" PyVal.none).truthy = true
    · have hrow : normalizeRow allow tzLocal row =
          (if allow.contains i
            then .ok (some (formatEventDate tzLocal (resolveNames row)))
            else .ok Option.none) := by
        unfold normalizeRow
        dsimp only
        rw [if_pos ht, hi]
      by_cases hm : allow.contains i = true
      · rw [if_pos hm] at hrow
        exact ⟨fun _ => ⟨ht, List.elem_iff.mp hm⟩, fun _ => ⟨_, hrow⟩⟩
      · rw [if_neg hm] at hrow
        constructor
        · rintro ⟨f, hf⟩
          rw [hrow] at hf
          exact absurd (Except.ok.inj hf) (by simp)
        · rintro ⟨-, hmem⟩
          exact absurd (List.elem_iff.mpr hmem) hm
    · have hrow : normalizeRow allow tzLocal row = .ok Option.none := by
        unfold normalizeRow
        dsimp only
        rw [if_neg ht]
      constructor
      · rintro ⟨f, hf⟩
        rw [hrow] at hf
        exact absurd (Except.ok.inj hf) (by simp)
      · rintro ⟨ht', -⟩
        exact absurd ht' ht
  · intro e ht he
    unfold normalizeRow
    dsimp only
    rw [if_pos ht, he]

/-- Witness for C1 (amended) at a concrete in-scope row. -/
theorem c1_membership_amended_witness :
    pyInt (rowUtcTimestamp.getD "league_api_id" PyVal.none) = .ok 39
    ∧ (rowUtcTimestamp.getD "league_api_id" PyVal.none).truthy = true
    ∧ (39 : Int) ∈ FALLBACK_LEAGUE_IDS
    ∧ ∃ f, normalizeRow FALLBACK_LEAGUE_IDS 0 rowUtcTimestamp = .ok (some f) := by
  refine ⟨rfl, rfl, by decide, ?_⟩
  exact ((c1_membership_amended FALLBACK_LEAGUE_IDS 0 rowUtcTimestamp).2.1 39
    rfl).mpr ⟨rfl, by decide⟩

/-- C3 counterexample: on a retained row whose timestamp parses but
carries a non-UTC offset (`+08:00`), `event_time_formatted` is the
timestamp's own wall-clock time `23:30`, not the UTC time `15:30` of
that instant, contradicting "on successful parse …
event_time_formatted is the UTC time HH:MM" (the code formats the
parsed datetime without converting it to UTC). -/
theorem c3_counterexample :
    (normalizeRow FALLBACK_LEAGUE_IDS 0 rowOffsetTimestamp).map
        (Option.map (fun f => f.getD "event_time_formatted" PyVal.none))
      = .ok (some (.str "23:30"))
    ∧ (fromisoformat (pyReplace "2024-03-01T23:30:00+08:00" 'Z' "+00:00")).map utcHM
      = some "15:30"
    ∧ ("23:30" : String) ≠ "15:30" :=
  ⟨rfl, rfl, by decide⟩

/-- C3 (amended): a retained row whose truthy timestamp string fails to
parse is still retained, with `event_date_formatted` and
`event_datetime_local` equal to the raw original string and
`event_time_formatted` equal to `00:00`; on successful parse the three
fields are formatted from the parsed datetime in its own offset
(`%Y-%m-%d`, `%H:%M`, and the local-timezone-converted `%Y-%m-%d %H:%M`)
— which coincide with the UTC date and time exactly when the timestamp's
offset is UTC (e.g. a `Z` suffix). -/
theorem c3_timestamp_amended (allow : List Int) (tzLocal : Int) (row : Row)
    (i : Int) (hi : pyInt (row.getD "league_api_id" PyVal.none) = .ok i)
    (ht : (row.getD "league_api_id" PyVal.none).truthy = true)
    (hm : i ∈ allow) (s : String)
    (hs : row.getD "event_date" PyVal.none = .str s) (hne : s ≠ "") :
    ∃ f, normalizeRow allow tzLocal row = .ok (some f)
      ∧ (fromisoformat (pyReplace s 'Z' "+00:00") = Option.none →
          f.getD "event_date_formatted" PyVal.none = .str s
          ∧ f.getD "event_time_formatted" PyVal.none = .str "00:00"
          ∧ f.getD "event_datetime_local" PyVal.none = .str s)
      ∧ (∀ dt, fromisoformat (pyReplace s 'Z' "+00:00") = some dt →
          f.getD "event_date_formatted" PyVal.none = .str (fmtDate dt)
          ∧ f.getD "event_time_formatted" PyVal.none = .str (fmtHM dt)
          ∧ f.getD "event_datetime_local" PyVal.none = .str (fmtLocal tzLocal dt)) := by
  have hc : allow.contains i = true := List.elem_iff.mpr hm
  have hrow : normalizeRow allow tzLocal row
      = .ok (some (formatEventDate tzLocal (resolveNames row))) := by
    unfold normalizeRow
    dsimp only
    rw [if_pos ht, hi]
    dsimp only
    rw [if_pos hc]
  have hx : (resolveNames row).getD "event_date" PyVal.none = .str s := by
    rw [resolveNames_getD_other row "event_date" PyVal.none (by decide) (by decide)
      (by decide)]
    exact hs
  have htr : (PyVal.str s).truthy = true := by
    simp [PyVal.truthy, hne]
  refine ⟨formatEventDate tzLocal (resolveNames row), hrow, ?_, ?_⟩
  · intro hparse
    have hF : formatEventDate tzLocal (resolveNames row)
        = (((resolveNames row).set "event_date_formatted" (.str s)).set
            "event_time_formatted" (.str "00:00")).set
            "event_datetime_local" (.str s) := by
      unfold formatEventDate
      dsimp only
      rw [hx, if_pos htr]
      dsimp only
      rw [hparse]
    rw [hF]
    refine ⟨?_, ?_, ?_⟩
    · rw [Row.getD_set_ne _ _ _ _ _ (by decide), Row.getD_set_ne _ _ _ _ _ (by decide),
        Row.getD_set_self]
    · rw [Row.getD_set_ne _ _ _ _ _ (by decide), Row.getD_set_self]
    · rw [Row.getD_set_self]
  · intro dt hparse
    have hF : formatEventDate tzLocal (resolveNames row)
        = (((resolveNames row).set "event_date_formatted" (.str (fmtDate dt))).set
            "event_time_formatted" (.str (fmtHM dt))).set
            "event_datetime_local" (.str (fmtLocal tzLocal dt)) := by
      unfold formatEventDate
      dsimp only
      rw [hx, if_pos htr]
      dsimp only
      rw [hparse]
    rw [hF]
    refine ⟨?_, ?_, ?_⟩
    · rw [Row.getD_set_ne _ _ _ _ _ (by decide), Row.getD_set_ne _ _ _ _ _ (by decide),
        Row.getD_set_self]
    · rw [Row.getD_set_ne _ _ _ _ _ (by decide), Row.getD_set_self]
    · rw [Row.getD_set_self]

/-- Witness for C3 (amended) at the malformed timestamp `not-a-date`. -/
theorem c3_timestamp_amended_witness :
    pyInt (rowBadTimestamp.getD "league_api_id" PyVal.none) = .ok 61
    ∧ (rowBadTimestamp.getD "league_api_id" PyVal.none).truthy = true
    ∧ (61 : Int) ∈ FALLBACK_LEAGUE_IDS
    ∧ rowBadTimestamp.getD "event_date" PyVal.none = .str "not-a-date"
    ∧ ("not-a-date" : String) ≠ ""
    ∧ ∃ f, normalizeRow FALLBACK_LEAGUE_IDS 0 rowBadTimestamp = .ok (some f)
        ∧ (fromisoformat (pyReplace "not-a-date" 'Z' "+00:00") = Option.none →
            f.getD "event_date_formatted" PyVal.none = .str "not-a-date"
            ∧ f.getD "event_time_formatted" PyVal.none = .str "00:00"
            ∧ f.getD "event_datetime_local" PyVal.none = .str "not-a-date")
        ∧ (∀ dt, fromisoformat (pyReplace "not-a-date" 'Z' "+00:00") = some dt →
            f.getD "event_date_formatted" PyVal.none = .str (fmtDate dt)
            ∧ f.getD "event_time_formatted" PyVal.none = .str (fmtHM dt)
            ∧ f.getD "event_datetime_local" PyVal.none = .str (fmtLocal 0 dt)) :=
  ⟨rfl, rfl, by decide, rfl, by decide,
    c3_timestamp_amended FALLBACK_LEAGUE_IDS 0 rowBadTimestamp 61 rfl rfl
      (by decide) "not-a-date" rfl (by decide)⟩

/-- C10: a retained row whose `event_date` is falsy (NULL or the empty
string) is still retained but carries none of the three derived
date/time keys, and `get_fixtures_by_date` files it under the
placeholder date key `未知日期`. -/
theorem c10_missing_date_fields (allow : List Int) (tzLocal : Int) (row : Row)
    (i : Int) (hi : pyInt (row.getD "league_api_id" PyVal.none) = .ok i)
    (ht : (row.getD "league_api_id" PyVal.none).truthy = true)
    (hm : i ∈ allow)
    (hdate : (row.getD "event_date" PyVal.none).truthy = false)
    (h1 : row.find? "event_date_formatted" = Option.none)
    (h2 : row.find? "event_time_formatted" = Option.none)
    (h3 : row.find? "event_datetime_local" = Option.none) :
    ∃ f, normalizeRow allow tzLocal row = .ok (some f)
      ∧ f.find? "event_date_formatted" = Option.none
      ∧ f.find? "event_time_formatted" = Option.none
      ∧ f.find? "event_datetime_local" = Option.none
      ∧ get_fixtures_by_date [f] = [(.str "未知日期", [f])] := by
  have hc : allow.contains i = true := List.elem_iff.mpr hm
  have hrow : normalizeRow allow tzLocal row
      = .ok (some (formatEventDate tzLocal (resolveNames row))) := by
    unfold normalizeRow
    dsimp only
    rw [if_pos ht, hi]
    dsimp only
    rw [if_pos hc]
  have hxe : (resolveNames row).getD "event_date" PyVal.none
      = row.getD "event_date" PyVal.none :=
    resolveNames_getD_other row "event_date" PyVal.none (by decide) (by decide)
      (by decide)
  have hF : formatEventDate tzLocal (resolveNames row) = resolveNames row := by
    unfold formatEventDate
    dsimp only
    rw [if_neg (by rw [hxe, hdate]; simp)]
  have hf1 : (resolveNames row).find? "event_date_formatted" = Option.none := by
    rw [resolveNames_find?_other row _ (by decide) (by decide) (by decide)]
    exact h1
  have hf2 : (resolveNames row).find? "event_time_formatted" = Option.none := by
    rw [resolveNames_find?_other row _ (by decide) (by decide) (by decide)]
    exact h2
  have hf3 : (resolveNames row).find? "event_datetime_local" = Option.none := by
    rw [resolveNames_find?_other row _ (by decide) (by decide) (by decide)]
    exact h3
  refine ⟨resolveNames row, by rw [hrow, hF], hf1, hf2, hf3, ?_⟩
  have hkey : (resolveNames row).getD "event_date_formatted" (.str "未知日期")
      = .str "未知日期" := by
    simp [Row.getD, hf1]
  unfold get_fixtures_by_date
  simp only [List.foldl_cons, List.foldl_nil]
  unfold addFixtureToDates
  dsimp only
  rw [hkey]
  simp [appendToDate, PyVal.beq_self]

/-- Witness for C10 at a concrete row with a NULL timestamp. -/
theorem c10_missing_date_fields_witness :
    pyInt (rowNullTimestamp.getD "league_api_id" PyVal.none) = .ok 39
    ∧ (rowNullTimestamp.getD "league_api_id" PyVal.none).truthy = true
    ∧ (39 : Int) ∈ FALLBACK_LEAGUE_IDS
    ∧ (rowNullTimestamp.getD "event_date" PyVal.none).truthy = false
    ∧ ∃ f, normalizeRow FALLBACK_LEAGUE_IDS 0 rowNullTimestamp = .ok (some f)
        ∧ f.find? "event_date_formatted" = Option.none
        ∧ f.find? "event_time_formatted" = Option.none
        ∧ f.find? "event_datetime_local" = Option.none
        ∧ get_fixtures_by_date [f] = [(.str "未知日期", [f])] :=
  ⟨rfl, rfl, by decide, rfl,
    c10_missing_date_fields FALLBACK_LEAGUE_IDS 0 rowNullTimestamp 39 rfl rfl
      (by decide) rfl rfl rfl rfl⟩

/-- C9 counterexample: normalization is not a function of the raw rows
and allow-list alone — the process-local timezone is a further hidden
input.  The same row, normalized under local offsets UTC+0 and UTC+8,
yields different `event_datetime_local` values, so the two outputs
differ. -/
theorem c9_counterexample :
    (normalizeFixtures FALLBACK_LEAGUE_IDS 0 [rowUtcTimestamp]).map
        (List.map (fun f => pyStrVal (f.getD "event_datetime_local" PyVal.none)))
      = .ok ["2024-03-01 10:00"]
    ∧ (normalizeFixtures FALLBACK_LEAGUE_IDS 480 [rowUtcTimestamp]).map
        (List.map (fun f => pyStrVal (f.getD "event_datetime_local" PyVal.none)))
      = .ok ["2024-03-01 18:00"]
    ∧ (normalizeFixtures FALLBACK_LEAGUE_IDS 0 [rowUtcTimestamp]).map
        (List.map (fun f => pyStrVal (f.getD "event_datetime_local" PyVal.none)))
      ≠ (normalizeFixtures FALLBACK_LEAGUE_IDS 480 [rowUtcTimestamp]).map
        (List.map (fun f => pyStrVal (f.getD "event_datetime_local" PyVal.none))) := by
  refine ⟨rfl, rfl, fun h => ?_⟩
  have h' : (["2024-03-01 10:00"] : List String) = ["2024-03-01 18:00"] :=
    Except.ok.inj h
  exact absurd h' (by decide)

/-- Erasing the one local-timezone-dependent field makes
`formatEventDate` independent of the local timezone. -/
theorem formatEventDate_erase (tz1 tz2 : Int) (x : Row) :
    (formatEventDate tz1 x).eraseKey "event_datetime_local"
      = (formatEventDate tz2 x).eraseKey "event_datetime_local" := by
  unfold formatEventDate
  dsimp only
  by_cases hd : (x.getD "event_date" PyVal.none).truthy = true
  · rw [if_pos hd, if_pos hd]
    rcases hv : x.getD "event_date" PyVal.none with _ | b | z | s | l | d
    · rfl
    · rfl
    · rfl
    · dsimp only
      rcases hp : fromisoformat (pyReplace s 'Z' "+00:00") with _ | dt
      · rfl
      · dsimp only
        rw [Row.eraseKey_set_self, Row.eraseKey_set_self]
    · rfl
    · rfl
  · rw [if_neg hd, if_neg hd]

/-- Row normalization, after erasing `event_datetime_local` from a retained
fixture, is independent of the local timezone. -/
theorem normalizeRow_erase (allow : List Int) (tz1 tz2 : Int) (row : Row) :
    (normalizeRow allow tz1 row).map
        (Option.map (fun f => f.eraseKey "event_datetime_local"))
      = (normalizeRow allow tz2 row).map
        (Option.map (fun f => f.eraseKey "event_datetime_local")) := by
  unfold normalizeRow
  dsimp only
  by_cases ht : (row.getD "league_api_id" PyVal.none).truthy = true
  · rw [if_pos ht, if_pos ht]
    cases hi : pyInt (row.getD "league_api_id" PyVal.none) with
    | error e => rfl
    | ok i =>
      dsimp only
      by_cases hc : allow.contains i = true
      · rw [if_pos hc, if_pos hc]
        simp only [Except.map, Option.map]
        rw [formatEventDate_erase tz1 tz2 (resolveNames row)]
      · rw [if_neg hc, if_neg hc]
  · rw [if_neg ht, if_neg ht]

/-- C9 (amended): normalization is a pure function of the raw rows, the
allow-list, and the process-local timezone; the timezone influences only
the derived `event_datetime_local` field — after deleting that one key
from every retained fixture, the output (including error behaviour) is
identical under any two local timezones.  With the timezone fixed, two
runs on identical input are identical by purity of the embedding. -/
theorem c9_determinism_amended (allow : List Int) (tz1 tz2 : Int)
    (rows : List Row) :
    (normalizeFixtures allow tz1 rows).map
        (List.map (fun f => f.eraseKey "event_datetime_local"))
      = (normalizeFixtures allow tz2 rows).map
        (List.map (fun f => f.eraseKey "event_datetime_local")) := by
  induction rows with
  | nil => rfl
  | cons row rest ih =>
    have hrow := normalizeRow_erase allow tz1 tz2 row
    cases h1 : normalizeRow allow tz1 row with
    | error e1 =>
      cases h2 : normalizeRow allow tz2 row with
      | error e2 =>
        rw [h1, h2] at hrow
        have he : e1 = e2 := by simpa [Except.map] using hrow
        subst he
        simp [normalizeFixtures, h1, h2]
      | ok o2 =>
        rw [h1, h2] at hrow
        exact absurd hrow (by simp [Except.map])
    | ok o1 =>
      cases h2 : normalizeRow allow tz2 row with
      | error e2 =>
        rw [h1, h2] at hrow
        exact absurd hrow (by simp [Except.map])
      | ok o2 =>
        rw [h1, h2] at hrow
        simp only [Except.map] at hrow
        have ho := Except.ok.inj hrow
        cases hr1 : normalizeFixtures allow tz1 rest with
        | error e =>
          cases hr2 : normalizeFixtures allow tz2 rest with
          | error e' =>
            rw [hr1, hr2] at ih
            have : e = e' := by simpa [Except.map] using ih
            subst this
            cases o1 <;> cases o2 <;>
              simp [normalizeFixtures, h1, h2, hr1, hr2, Except.map]
          | ok r2 =>
            rw [hr1, hr2] at ih
            exact absurd ih (by simp [Except.map])
        | ok r1 =>
          cases hr2 : normalizeFixtures allow tz2 rest with
          | error e' =>
            rw [hr1, hr2] at ih
            exact absurd ih (by simp [Except.map])
          | ok r2 =>
            rw [hr1, hr2] at ih
            have hri : r1.map (fun f => f.eraseKey "event_datetime_local")
                = r2.map (fun f => f.eraseKey "event_datetime_local") := by
              simpa [Except.map] using ih
            cases o1 with
            | none =>
              cases o2 with
              | none =>
                simp only [normalizeFixtures, h1, h2, hr1, hr2]
                simp [Except.map, hri]
              | some f2 => simp [Option.map] at ho
            | some f1 =>
              cases o2 with
              | none => simp [Option.map] at ho
              | some f2 =>
                have hf : f1.eraseKey "event_datetime_local"
                    = f2.eraseKey "event_datetime_local" := by
                  simpa [Option.map] using ho
                simp only [normalizeFixtures, h1, h2, hr1, hr2]
                simp [Except.map, hf, hri]

theorem PyVal.isStr_iff (v : PyVal) : v.isStr = true ↔ ∃ s, v = .str s := by
  cases v <;> simp [PyVal.isStr]

/-- C6: on any input whose resolved display names and date keys are
strings (the shape of the spec's `NormalizedFixture`, shuffled or not),
the mapping returned by `get_fixtures_by_league` is ordered by display
name ascending and the mapping returned by `get_fixtures_by_date` is
ordered by its date-string key ascending, in code-point string order;
missing keys never make either function raise — they are absorbed by the
placeholder defaults, as the totality of the embedded functions over all
such inputs shows. -/
theorem c6_grouping_sorted (fixtures : List Row)
    (hL : (fixtures.all
      (fun f => (f.getD "league_name_tc" (.str "未知聯賽")).isStr)) = true)
    (hD : (fixtures.all
      (fun f => (f.getD "event_date_formatted" (.str "未知日期")).isStr)) = true) :
    (get_fixtures_by_league fixtures).Pairwise
      (fun a b => ∃ s t : String, a.2.name = .str s ∧ b.2.name = .str t ∧ s ≤ t)
    ∧ (get_fixtures_by_date fixtures).Pairwise
      (fun a b => ∃ s t : String, a.1 = .str s ∧ b.1 = .str t ∧ s ≤ t) := by
  constructor
  · have hs := @List.sorted_mergeSort (PyVal × LeagueGroup)
      (fun a b => pyValLe a.2.name b.2.name)
      (fun a b c hab hbc => pyValLe_trans _ _ _ hab hbc)
      (fun a b => pyValLe_total _ _)
      (fixtures.foldl addFixtureToLeagues [])
    unfold get_fixtures_by_league
    refine List.Pairwise.imp_of_mem ?_ hs
    intro a b ha hb hab
    have ha' : a.2.name ∈ (fixtures.foldl addFixtureToLeagues []).map
        (fun p => p.2.name) :=
      List.mem_map_of_mem _ ((List.mergeSort_perm _ _).subset ha)
    have hb' : b.2.name ∈ (fixtures.foldl addFixtureToLeagues []).map
        (fun p => p.2.name) :=
      List.mem_map_of_mem _ ((List.mergeSort_perm _ _).subset hb)
    rcases leagues_names_from_fixtures fixtures [] a.2.name ha' with h | ⟨fa, hfa, heqa⟩
    · simp at h
    rcases leagues_names_from_fixtures fixtures [] b.2.name hb' with h | ⟨fb, hfb, heqb⟩
    · simp at h
    obtain ⟨sa, hsa⟩ := (PyVal.isStr_iff _).mp (List.all_eq_true.mp hL fa hfa)
    obtain ⟨sb, hsb⟩ := (PyVal.isStr_iff _).mp (List.all_eq_true.mp hL fb hfb)
    have hna : a.2.name = .str sa := by rw [heqa, hsa]
    have hnb : b.2.name = .str sb := by rw [heqb, hsb]
    rw [hna, hnb] at hab
    exact ⟨sa, sb, hna, hnb, (pyValLe_str sa sb).mp hab⟩
  · have hs := @List.sorted_mergeSort (PyVal × List Row)
      (fun a b => pyValLe a.1 b.1)
      (fun a b c hab hbc => pyValLe_trans _ _ _ hab hbc)
      (fun a b => pyValLe_total _ _)
      (fixtures.foldl addFixtureToDates [])
    unfold get_fixtures_by_date
    refine List.Pairwise.imp_of_mem ?_ hs
    intro a b ha hb hab
    have ha' : a.1 ∈ (fixtures.foldl addFixtureToDates []).map Prod.fst :=
      List.mem_map_of_mem _ ((List.mergeSort_perm _ _).subset ha)
    have hb' : b.1 ∈ (fixtures.foldl addFixtureToDates []).map Prod.fst :=
      List.mem_map_of_mem _ ((List.mergeSort_perm _ _).subset hb)
    rcases dates_keys_from_fixtures fixtures [] a.1 ha' with h | ⟨fa, hfa, heqa⟩
    · simp at h
    rcases dates_keys_from_fixtures fixtures [] b.1 hb' with h | ⟨fb, hfb, heqb⟩
    · simp at h
    obtain ⟨sa, hsa⟩ := (PyVal.isStr_iff _).mp (List.all_eq_true.mp hD fa hfa)
    obtain ⟨sb, hsb⟩ := (PyVal.isStr_iff _).mp (List.all_eq_true.mp hD fb hfb)
    have hna : a.1 = .str sa := by rw [heqa, hsa]
    have hnb : b.1 = .str sb := by rw [heqb, hsb]
    rw [hna, hnb] at hab
    exact ⟨sa, sb, hna, hnb, (pyValLe_str sa sb).mp hab⟩

/-- Witness for C6 at a shuffled three-fixture input. -/
theorem c6_grouping_sorted_witness :
    ([fxA, fxB, fxC].all
      (fun f => (f.getD "league_name_tc" (.str "未知聯賽")).isStr)) = true
    ∧ ([fxA, fxB, fxC].all
      (fun f => (f.getD "event_date_formatted" (.str "未知日期")).isStr)) = true
    ∧ ((get_fixtures_by_league [fxA, fxB, fxC]).Pairwise
        (fun a b => ∃ s t : String, a.2.name = .str s ∧ b.2.name = .str t ∧ s ≤ t)
      ∧ (get_fixtures_by_date [fxA, fxB, fxC]).Pairwise
        (fun a b => ∃ s t : String, a.1 = .str s ∧ b.1 = .str t ∧ s ≤ t)) :=
  ⟨by decide, by decide, c6_grouping_sorted [fxA, fxB, fxC] (by decide) (by decide)⟩

theorem Row.find?_cons (p : String × PyVal) (r : Row) (k : String) :
    Row.find? (p :: r) k = if p.1 = k then some p.2 else r.find? k := by
  obtain ⟨k0, v0⟩ := p
  rfl

theorem serialEntry_fst (loads : String → Option PyVal) (p : String × PyVal) :
    (serialEntry loads p).1 = p.1 := by
  obtain ⟨k, v⟩ := p
  unfold serialEntry
  dsimp only
  split
  · cases v with
    | str s =>
      dsimp only
      cases loads s with
      | none => rfl
      | some j => rfl
    | none => rfl
    | bool b => rfl
    | int z => rfl
    | list l => rfl
    | dict d => rfl
  · rfl

theorem serialEntry_ne (loads : String → Option PyVal) (k : String) (v : PyVal)
    (hk : k ≠ "raw_data") : serialEntry loads (k, v) = (k, v) := by
  unfold serialEntry
  rw [if_neg]
  rintro ⟨h1, -⟩
  exact hk h1

/-- Lookup through the per-entry serialization: keys are preserved, so
the first binding of a key maps to its transformed value. -/
theorem find?_serializeFixture (loads : String → Option PyVal) (f : Row)
    (k : String) :
    (serializeFixture loads f).find? k
      = (f.find? k).map (fun v => (serialEntry loads (k, v)).2) := by
  unfold serializeFixture
  induction f with
  | nil => rfl
  | cons p rest ih =>
    obtain ⟨k0, v0⟩ := p
    simp only [List.map_cons, Row.find?_cons, serialEntry_fst]
    by_cases h : k0 = k
    · rw [if_pos h, if_pos h]
      subst h
      rfl
    · rw [if_neg h, if_neg h]
      exact ih

/-- C8: the serialization adapter never drops a fixture and never raises
— it maps every fixture (same output length, same per-fixture entry
count), copies every field with a key other than `raw_data` verbatim,
copies a falsy or non-string `raw_data` verbatim, and replaces a truthy
`raw_data` string by its decoded JSON value when the decoder succeeds or
keeps the text as a plain string when decoding fails. -/
theorem c8_serialization (loads : String → Option PyVal) (fixtures : List Row) :
    (save_fixtures_to_json loads fixtures).length = fixtures.length
    ∧ (∀ f : Row, (serializeFixture loads f).length = f.length)
    ∧ (∀ (f : Row) (k : String), k ≠ "raw_data" →
        (serializeFixture loads f).find? k = f.find? k)
    ∧ (∀ (f : Row) (v : PyVal), f.find? "raw_data" = some v → v.truthy = false →
        (serializeFixture loads f).find? "raw_data" = some v)
    ∧ (∀ (f : Row) (s : String), f.find? "raw_data" = some (.str s) → s ≠ "" →
        (serializeFixture loads f).find? "raw_data"
          = some ((loads s).getD (.str s)))
    ∧ (∀ (f : Row) (v : PyVal), f.find? "raw_data" = some v → v.isStr = false →
        (serializeFixture loads f).find? "raw_data" = some v) := by
  refine ⟨by simp [save_fixtures_to_json], fun f => by simp [serializeFixture],
    ?_, ?_, ?_, ?_⟩
  · intro f k hk
    rw [find?_serializeFixture]
    cases hv : f.find? k with
    | none => rfl
    | some v => simp [serialEntry_ne loads k v hk]
  · intro f v hfind htr
    rw [find?_serializeFixture, hfind]
    simp only [Option.map_some']
    have : serialEntry loads ("raw_data", v) = ("raw_data", v) := by
      unfold serialEntry
      rw [if_neg]
      rintro ⟨-, h2⟩
      rw [htr] at h2
      exact absurd h2 (by simp)
    rw [this]
  · intro f s hfind hs
    rw [find?_serializeFixture, hfind]
    simp only [Option.map_some']
    have hcond : ("raw_data", PyVal.str s).1 = "raw_data"
        ∧ ("raw_data", PyVal.str s).2.truthy = true :=
      ⟨rfl, by simp [PyVal.truthy, hs]⟩
    unfold serialEntry
    rw [if_pos hcond]
    dsimp only
    cases hl : loads s with
    | none => rfl
    | some j => rfl
  · intro f v hfind hstr
    rw [find?_serializeFixture, hfind]
    simp only [Option.map_some']
    unfold serialEntry
    split
    · cases v with
      | str s => simp [PyVal.isStr] at hstr
      | none => rfl
      | bool b => rfl
      | int z => rfl
      | list l => rfl
      | dict d => rfl
    · rfl

/-- Witness for C8 at a fixture with a decodable raw payload. -/
theorem c8_serialization_witness :
    ("id" : String) ≠ "raw_data"
    ∧ rowRawPayload.find? "raw_data" = some (.str "[1, 2]")
    ∧ ("[1, 2]" : String) ≠ ""
    ∧ (serializeFixture
        (fun s => if s = "[1, 2]" then some (.list [.int 1, .int 2]) else Option.none)
        rowRawPayload).find? "id" = rowRawPayload.find? "id"
    ∧ (serializeFixture
        (fun s => if s = "[1, 2]" then some (.list [.int 1, .int 2]) else Option.none)
        rowRawPayload).find? "raw_data"
      = some (((fun s => if s = "[1, 2]" then some (.list [.int 1, .int 2]) else Option.none)
          "[1, 2]").getD (.str "[1, 2]")) :=
  ⟨by decide, rfl, by decide,
    (c8_serialization
      (fun s => if s = "[1, 2]" then some (.list [.int 1, .int 2]) else Option.none)
      [rowRawPayload]).2.2.1 rowRawPayload "id" (by decide),
    (c8_serialization
      (fun s => if s = "[1, 2]" then some (.list [.int 1, .int 2]) else Option.none)
      [rowRawPayload]).2.2.2.2.1 rowRawPayload "[1, 2]" rfl (by decide)⟩
